import Mathlib

/-!
Shallow embedding of `examples/doktorhut.py` (Piano-HAT demo).

The program is an event-driven wrapper: hardware callbacks (note press/release,
octave up/down, instrument button) are routed to the currently active "mode".
We embed each handler as a pure function from an explicit mode state and the
event arguments to a new state together with a trace of external effects
(LED writes, sample playback, music-transport operations, sleeps, process
exit).  Fallible Python operations (list indexing, attribute access before
assignment, integer modulo by zero) are embedded in `Except PyError`.
-/

/-- Python exceptions that the embedded code can raise. -/
inductive PyError where
  | indexError
  | attributeError
  | typeError
  | zeroDivisionError
deriving DecidableEq, Repr

/-- External side effects performed through the `pianohat` driver and the
`pygame` audio engine.  `playSample i` records playback of `samples[i]` with
`i` already resolved to a nonnegative list position. -/
inductive Effect where
  | setLed (led : Nat) (lit : Bool)
  | autoLeds (lit : Bool)
  | bindNote
  | bindOctaveUp
  | bindOctaveDown
  | playSample (idx : Nat)
  | musicLoad
  | musicPlay
  | musicUnpause
  | musicPause
  | musicStop
  | sleep
  | exitProc
deriving DecidableEq, Repr

/-- `NOTE_OFFSET = -9` from the settings block. -/
def NOTE_OFFSET : Int := -9

/-- Python list indexing `xs[i]` for a list of length `len`: nonnegative
indices must be below `len`, negative indices count from the end, anything
else raises `IndexError`.  Returns the resolved nonnegative position. -/
def pyListIndex (len : Nat) (i : Int) : Except PyError Nat :=
  if 0 ≤ i then
    if i < (len : Int) then .ok i.toNat else .error .indexError
  else
    if -(len : Int) ≤ i then .ok (i + (len : Int)).toNat else .error .indexError

/-- `turn_off_leds`: sets each of LEDs 0..15 off. -/
def turn_off_leds : List Effect :=
  (List.range 16).map fun led => Effect.setLed led false

/-- `PianoMode.activate`: re-binds the three event handlers, clears the 16
LEDs, and sets the driver auto-LED flag to the mode's `auto_led` value. -/
def pianoModeActivate (auto_led : Bool) : List Effect :=
  [Effect.bindNote, Effect.bindOctaveUp, Effect.bindOctaveDown]
    ++ (List.range 16).map (fun x => Effect.setLed x false)
    ++ [Effect.autoLeds auto_led]

/-- State of `SimplePianoMode` (Free-Play): just the selected octave. -/
structure SimplePianoState where
  octave : Nat
deriving DecidableEq, Repr

namespace SimplePianoMode

/-- `SimplePianoMode.__init__`: accepts `starting_octave` when
`0 <= starting_octave < octaves`, otherwise falls back to octave 0. -/
def init (octaves : Nat) (starting_octave : Int) : SimplePianoState :=
  if 0 ≤ starting_octave ∧ starting_octave < (octaves : Int) then
    ⟨starting_octave.toNat⟩
  else
    ⟨0⟩

/-- `SimplePianoMode.handle_note`: computes
`note_index = channel + 12*octave + NOTE_OFFSET` and plays
`samples[note_index]` when `0 <= note_index < len(samples)` and the event is
a press.  The state is not modified. -/
def handle_note (samplesLen : Nat) (s : SimplePianoState) (channel : Nat)
    (pressed : Bool) : List Effect :=
  let note_index : Int := (channel : Int) + 12 * (s.octave : Int) + NOTE_OFFSET
  if 0 ≤ note_index ∧ note_index < (samplesLen : Int) ∧ pressed = true then
    [Effect.playSample note_index.toNat]
  else
    []

/-- `SimplePianoMode.handle_octave_up`: increments the octave when pressed
and `octave < octaves`.  The channel argument is unused by the source. -/
def handle_octave_up (octaves : Nat) (s : SimplePianoState) (_channel : Nat)
    (pressed : Bool) : SimplePianoState :=
  if pressed = true ∧ s.octave < octaves then ⟨s.octave + 1⟩ else s

/-- `SimplePianoMode.handle_octave_down`: decrements the octave when pressed
and `octave > 0`. -/
def handle_octave_down (s : SimplePianoState) (_channel : Nat)
    (pressed : Bool) : SimplePianoState :=
  if pressed = true ∧ 0 < s.octave then ⟨s.octave - 1⟩ else s

end SimplePianoMode

/-- One octave-button event delivered to Free-Play mode. -/
inductive OctaveEvent where
  | up (channel : Nat) (pressed : Bool)
  | down (channel : Nat) (pressed : Bool)
deriving DecidableEq, Repr

/-- Applies a sequence of octave-up/octave-down events to a Free-Play state. -/
def applyOctaveEvents (octaves : Nat) (s : SimplePianoState) :
    List OctaveEvent → SimplePianoState
  | [] => s
  | .up ch p :: rest =>
      applyOctaveEvents octaves (SimplePianoMode.handle_octave_up octaves s ch p) rest
  | .down ch p :: rest =>
      applyOctaveEvents octaves (SimplePianoMode.handle_octave_down s ch p) rest

/-- The `melodies` table, key `alle_meine_entchen`. -/
def melodies_alle_meine_entchen : List Nat :=
  [0,2,4,5,7,7,9,9,9,9,7,9,9,9,9,7,5,5,5,5,4,4,2,2,2,2,0]

/-- The `melodies` table, key `twinkle_twinkle`. -/
def melodies_twinkle_twinkle : List Nat :=
  [0,0,7,7,9,9,7,5,5,4,4,2,2,0]

/-- The `melodies` table, key `zeiss`. -/
def melodies_zeiss : List Nat :=
  [7,9,7,7,7,7,5,4,0]

/-- State of `MelodyMode`.  `note` is the melody cursor, `note_offset` is
`12*octave + transpose + NOTE_OFFSET` fixed at construction,
`play_on_success` records whether an easter-egg clip was configured, and
`music_running` models the `_music_running` attribute (`none` while the
attribute has never been assigned). -/
structure MelodyState where
  melody : List Nat
  note : Nat
  note_offset : Int
  play_on_success : Bool
  music_running : Option Bool
deriving DecidableEq, Repr

namespace MelodyMode

/-- `MelodyMode._current_note`: `self.melody[self.note]`, raising
`IndexError` when the cursor is out of range. -/
def _current_note (s : MelodyState) : Except PyError Nat :=
  match s.melody.get? s.note with
  | some c => .ok c
  | none => .error .indexError

/-- `MelodyMode._success`: optionally starts the reward clip (setting
`_music_running`), then runs the 13-LED sweep with sleeps and a final
two-second sleep. -/
def _success (s : MelodyState) : MelodyState × List Effect :=
  let s1 := if s.play_on_success = true then { s with music_running := some true } else s
  let eff1 : List Effect :=
    if s.play_on_success = true then [Effect.musicLoad, Effect.musicPlay] else []
  let sweep := (List.range 13).flatMap fun led => [Effect.setLed led true, Effect.sleep]
  (s1, eff1 ++ turn_off_leds ++ sweep ++ turn_off_leds ++ [Effect.sleep])

/-- `MelodyMode._next`: turns off the current note's LED, advances the
cursor, runs `_success` and resets to 0 when the melody is complete, and
lights the LED of the new current note. -/
def _next (s : MelodyState) : Except PyError (MelodyState × List Effect) := do
  let cur ← _current_note s
  let s1 : MelodyState := { s with note := s.note + 1 }
  if s1.note = s.melody.length then
    let s2 := (_success s1).1
    let effS := (_success s1).2
    let s3 : MelodyState := { s2 with note := 0 }
    let cur2 ← _current_note s3
    .ok (s3, Effect.setLed cur false :: Effect.sleep :: (effS ++ [Effect.setLed cur2 true]))
  else
    let cur2 ← _current_note s1
    .ok (s1, [Effect.setLed cur false, Effect.sleep, Effect.setLed cur2 true])

/-- `MelodyMode.activate`: runs `PianoMode.activate` (with `auto_led =
False`), resets the cursor to 0 and lights the first expected note's LED. -/
def activate (s : MelodyState) : Except PyError (MelodyState × List Effect) := do
  let s1 : MelodyState := { s with note := 0 }
  let cur ← _current_note s1
  .ok (s1, pianoModeActivate false ++ [Effect.setLed cur true])

/-- `MelodyMode.handle_note`: ignores any channel other than the current
expected note; on a press of the expected note, indexes
`samples[note_offset + channel]` (unguarded in the source: `pyListIndex`
raises when the index is out of range), plays it, and advances via
`_next`. -/
def handle_note (samplesLen : Nat) (s : MelodyState) (channel : Nat)
    (pressed : Bool) : Except PyError (MelodyState × List Effect) := do
  let cur ← _current_note s
  if channel ≠ cur then
    .ok (s, [])
  else if pressed = true then do
    let idx ← pyListIndex samplesLen (s.note_offset + (channel : Int))
    let r ← _next s
    .ok (r.1, Effect.playSample idx :: r.2)
  else
    .ok (s, [])

/-- `MelodyMode.handle_octave_up`: with a reward clip configured, a press
unpauses the music and sets `_music_running`. -/
def handle_octave_up (s : MelodyState) (_channel : Nat) (pressed : Bool) :
    MelodyState × List Effect :=
  if s.play_on_success = true ∧ pressed = true then
    ({ s with music_running := some true }, [Effect.musicUnpause])
  else (s, [])

/-- `MelodyMode.handle_octave_down`: with a reward clip configured, a press
reads `_music_running` (an `AttributeError` if never assigned) and pauses
or stops the music. -/
def handle_octave_down (s : MelodyState) (_channel : Nat) (pressed : Bool) :
    Except PyError (MelodyState × List Effect) :=
  if s.play_on_success = true ∧ pressed = true then
    match s.music_running with
    | none => .error .attributeError
    | some true => .ok ({ s with music_running := some false }, [Effect.musicPause])
    | some false => .ok (s, [Effect.musicStop])
  else .ok (s, [])

end MelodyMode

/-- A registered mode: either a Free-Play (`SimplePianoMode`) instance or a
Melody (`MelodyMode`) instance. -/
inductive Mode where
  | simple (s : SimplePianoState)
  | melody (s : MelodyState)
deriving DecidableEq, Repr

/-- Dispatches `activate` to the mode's class (Free-Play inherits
`PianoMode.activate` unchanged, with `auto_led = True`). -/
def Mode.activate : Mode → Except PyError (Mode × List Effect)
  | .simple s => .ok (.simple s, pianoModeActivate true)
  | .melody s => do
      let r ← MelodyMode.activate s
      .ok (.melody r.1, r.2)

/-- Dispatches a note event to the mode's `handle_note`. -/
def Mode.handle_note (samplesLen : Nat) :
    Mode → Nat → Bool → Except PyError (Mode × List Effect)
  | .simple s, ch, p => .ok (.simple s, SimplePianoMode.handle_note samplesLen s ch p)
  | .melody s, ch, p => do
      let r ← MelodyMode.handle_note samplesLen s ch p
      .ok (.melody r.1, r.2)

/-- Dispatches an octave-up event to the mode's `handle_octave_up`. -/
def Mode.handle_octave_up (octaves : Nat) :
    Mode → Nat → Bool → Except PyError (Mode × List Effect)
  | .simple s, ch, p =>
      .ok (.simple (SimplePianoMode.handle_octave_up octaves s ch p), [])
  | .melody s, ch, p =>
      .ok (.melody (MelodyMode.handle_octave_up s ch p).1,
           (MelodyMode.handle_octave_up s ch p).2)

/-- Dispatches an octave-down event to the mode's `handle_octave_down`. -/
def Mode.handle_octave_down :
    Mode → Nat → Bool → Except PyError (Mode × List Effect)
  | .simple s, ch, p => .ok (.simple (SimplePianoMode.handle_octave_down s ch p), [])
  | .melody s, ch, p => do
      let r ← MelodyMode.handle_octave_down s ch p
      .ok (.melody r.1, r.2)

/-- A melody cursor validity check: Free-Play states are always fine, a
Melody state's cursor must be inside its melody (true of every state the
program reaches, since `activate` precedes any event delivery). -/
def Mode.cursorOk : Mode → Bool
  | .simple _ => true
  | .melody s => decide (s.note < s.melody.length)

/-- The mode registry: the `opmodes` list plus the `opmode_index` cursor. -/
structure Dispatcher where
  opmodes : List Mode
  opmode_index : Nat
deriving DecidableEq, Repr

/-- `handle_instrument`: on a press, advances `opmode_index` by one modulo
`len(opmodes)` (Python raises `ZeroDivisionError` on an empty registry) and
activates the newly selected mode. -/
def handle_instrument (d : Dispatcher) (_channel : Nat) (pressed : Bool) :
    Except PyError (Dispatcher × List Effect) :=
  if pressed = true then
    if d.opmodes.length = 0 then .error .zeroDivisionError
    else
      let i := (d.opmode_index + 1) % d.opmodes.length
      match d.opmodes.get? i with
      | none => .error .indexError
      | some m => do
          let r ← m.activate
          .ok (⟨d.opmodes.set i r.1, i⟩, r.2)
  else .ok (d, [])

/-- Iterates `handle_instrument` presses, threading the dispatcher state. -/
def pressTimes : Nat → Dispatcher → Except PyError Dispatcher
  | 0, d => .ok d
  | k + 1, d => do
      let r ← handle_instrument d 15 true
      pressTimes k r.1

/-- The `KeyboardInterrupt` handler: `turn_off_leds()` then `exit()`. -/
def keyboardInterruptCleanup : List Effect :=
  turn_off_leds ++ [Effect.exitProc]

/-- One element of a `natural_sort_key` result: a lowercased text piece or
a digit run converted to an integer. -/
inductive SortKeyElem where
  | str (cs : List Char)
  | num (n : Nat)
deriving DecidableEq, Repr

/-- Splits a character list as `re.split('([0-9]+)', s)` does: alternating
(possibly empty) non-digit chunks and maximal digit runs, beginning and
ending with a non-digit chunk. -/
def splitDigitRuns : Bool → List Char → List Char → List (List Char)
  | true, acc, [] => [acc.reverse, []]
  | false, acc, [] => [acc.reverse]
  | inDigits, acc, c :: cs =>
      if c.isDigit = inDigits then splitDigitRuns inDigits (c :: acc) cs
      else acc.reverse :: splitDigitRuns (!inDigits) [c] cs

/-- `int(text)` on a digit run. -/
def parseDigits (cs : List Char) : Nat :=
  cs.foldl (fun a c => 10 * a + (c.toNat - 48)) 0

/-- `natural_sort_key`: splits on digit runs and maps each piece to
`int(text)` when `text.isdigit()` (nonempty, all digits), else to
`text.lower()`. -/
def natural_sort_key (s : List Char) : List SortKeyElem :=
  (splitDigitRuns false [] s).map fun text =>
    if text ≠ [] ∧ text.all Char.isDigit = true then .num (parseDigits text)
    else .str (text.map Char.toLower)

/-- Python string `<` (code-point lexicographic). -/
def charListLt : List Char → List Char → Bool
  | _, [] => false
  | [], _ :: _ => true
  | a :: as, b :: bs => decide (a < b) || (decide (a = b) && charListLt as bs)

/-- Python `==` on key elements: mixed `int`/`str` compares unequal. -/
def sortKeyElemEq : SortKeyElem → SortKeyElem → Bool
  | .num a, .num b => decide (a = b)
  | .str a, .str b => decide (a = b)
  | _, _ => false

/-- Python `<` on key elements: mixed `int`/`str` raises `TypeError`. -/
def sortKeyElemLt : SortKeyElem → SortKeyElem → Except PyError Bool
  | .num a, .num b => .ok (decide (a < b))
  | .str a, .str b => .ok (charListLt a b)
  | _, _ => .error .typeError

/-- Python list `<` on keys: first unequal position decides, a strict
prefix is smaller. -/
def sortKeyLt : List SortKeyElem → List SortKeyElem → Except PyError Bool
  | _, [] => .ok false
  | [], _ :: _ => .ok true
  | a :: as, b :: bs => if sortKeyElemEq a b then sortKeyLt as bs else sortKeyElemLt a b

/-- Stable insertion of a filename into a list already sorted by
`natural_sort_key`. -/
def insortByNaturalKey (x : List Char) :
    List (List Char) → Except PyError (List (List Char))
  | [] => .ok [x]
  | y :: ys => do
      let lt ← sortKeyLt (natural_sort_key x) (natural_sort_key y)
      if lt then .ok (x :: y :: ys)
      else do
        let r ← insortByNaturalKey x ys
        .ok (y :: r)

/-- `files.sort(key=natural_sort_key)`: a stable sort by the natural key
(with all-distinct keys any comparison sort produces this result). -/
def sortByNaturalKey (l : List (List Char)) : Except PyError (List (List Char)) :=
  l.foldlM (fun acc x => insortByNaturalKey x acc) []

/-- The `opmodes` list built in the startup block:
`SimplePianoMode(starting_octave=4)`, the `alle_meine_entchen` melody mode
(default octave 4, transpose 0, no easter egg, so
`note_offset = 12*4 + 0 + NOTE_OFFSET = 39`), and the `zeiss` melody mode
(transpose 6, easter egg configured, `note_offset = 45`).  The sample bank
size is environment dependent; shown with a six-octave bank, under which
the starting octave 4 is accepted. -/
def opmodes_init : List Mode :=
  [ Mode.simple (SimplePianoMode.init 6 4),
    Mode.melody ⟨melodies_alle_meine_entchen, 0, 12 * 4 + 0 + NOTE_OFFSET, false, none⟩,
    Mode.melody ⟨melodies_zeiss, 0, 12 * 4 + 6 + NOTE_OFFSET, true, none⟩ ]

/-- The dispatcher at startup: `opmode_index = 0`. -/
def dispatcher_init : Dispatcher := ⟨opmodes_init, 0⟩

/-!  Theorems settling the claims. -/

/-- Claim C3: in Melody Mode with melody `[0,2,4]` and cursor at 0, pressing
notes 0, 2, 4 in order plays the corresponding sample at each step and
advances the cursor 0→1→2→0, running the `_success` trigger on the final
wrap, while pressing note 2 when the cursor expects 0 leaves the state
unchanged and plays nothing. -/
theorem melody_sequence_progression :
    MelodyMode.handle_note 12 ⟨[0, 2, 4], 0, 0, false, none⟩ 2 true
        = .ok (⟨[0, 2, 4], 0, 0, false, none⟩, []) ∧
    MelodyMode.handle_note 12 ⟨[0, 2, 4], 0, 0, false, none⟩ 0 true
        = .ok (⟨[0, 2, 4], 1, 0, false, none⟩,
            [Effect.playSample 0, Effect.setLed 0 false, Effect.sleep,
             Effect.setLed 2 true]) ∧
    MelodyMode.handle_note 12 ⟨[0, 2, 4], 1, 0, false, none⟩ 2 true
        = .ok (⟨[0, 2, 4], 2, 0, false, none⟩,
            [Effect.playSample 2, Effect.setLed 2 false, Effect.sleep,
             Effect.setLed 4 true]) ∧
    MelodyMode.handle_note 12 ⟨[0, 2, 4], 2, 0, false, none⟩ 4 true
        = .ok (⟨[0, 2, 4], 0, 0, false, none⟩,
            Effect.playSample 4 :: Effect.setLed 4 false :: Effect.sleep ::
              ((MelodyMode._success ⟨[0, 2, 4], 3, 0, false, none⟩).2
                ++ [Effect.setLed 0 true])) :=
  ⟨rfl, rfl, rfl, rfl⟩

/-- Claim C6: sorting `["s1.wav", "s10.wav", "s2.wav"]` with the sample
bank's natural sort key yields `["s1.wav", "s2.wav", "s10.wav"]`; the key
comparison puts `s2.wav` before `s10.wav` (2 < 10 numerically) even though
plain lexicographic character comparison puts `s10.wav` first. -/
theorem natural_sort_order :
    sortByNaturalKey ["s1.wav".toList, "s10.wav".toList, "s2.wav".toList]
        = .ok ["s1.wav".toList, "s2.wav".toList, "s10.wav".toList] ∧
    sortKeyLt (natural_sort_key "s2.wav".toList) (natural_sort_key "s10.wav".toList)
        = .ok true ∧
    charListLt "s10.wav".toList "s2.wav".toList = true :=
  ⟨rfl, rfl, rfl⟩

/-- Claim C9: the `KeyboardInterrupt` handler performs exactly the sixteen
LED-off writes (LEDs 0..15) followed by the process exit, and nothing
else. -/
theorem interrupt_turns_off_leds :
    keyboardInterruptCleanup =
      [Effect.setLed 0 false, Effect.setLed 1 false, Effect.setLed 2 false,
       Effect.setLed 3 false, Effect.setLed 4 false, Effect.setLed 5 false,
       Effect.setLed 6 false, Effect.setLed 7 false, Effect.setLed 8 false,
       Effect.setLed 9 false, Effect.setLed 10 false, Effect.setLed 11 false,
       Effect.setLed 12 false, Effect.setLed 13 false, Effect.setLed 14 false,
       Effect.setLed 15 false, Effect.exitProc] := rfl

/-- Claim C1 counterexample: with a two-octave bank (`octaves = 2`, so
`max_octave - 1 = 1`), an octave-up press at octave 1 does not leave the
octave unchanged: `handle_octave_up` moves it to 2, which is outside
`[0, 2)`. -/
theorem octave_up_at_top_increments :
    SimplePianoMode.handle_octave_up 2 ⟨1⟩ 15 true = ⟨2⟩ ∧
    applyOctaveEvents 2 ⟨1⟩ [OctaveEvent.up 15 true] = ⟨2⟩ ∧
    ¬ (SimplePianoMode.handle_octave_up 2 ⟨1⟩ 15 true).octave < 2 := by
  decide

/-- Claim C2 counterexample: `MelodyMode.handle_note` accesses the sample
list without a bounds guard.  With 10 loaded samples, `note_offset = 39`
(the defaults used by the startup code), melody `[0]` and cursor 0, a press
of the expected note 0 requests `samples[39]` and raises `IndexError`
instead of being silently ignored. -/
theorem melody_sample_access_unguarded :
    MelodyMode.handle_note 10 ⟨[0], 0, 39, false, none⟩ 0 true
      = .error PyError.indexError := rfl


/-- Helper: every sequence of octave events keeps the Free-Play octave at or
below `octaves` (the inclusive bound the code actually enforces). -/
theorem applyOctaveEvents_octave_le (octaves : Nat) :
    ∀ (evs : List OctaveEvent) (s : SimplePianoState), s.octave ≤ octaves →
      (applyOctaveEvents octaves s evs).octave ≤ octaves := by
  intro evs
  induction evs with
  | nil => intro s h; exact h
  | cons e rest ih =>
      intro s h
      cases e with
      | up ch p =>
          apply ih
          unfold SimplePianoMode.handle_octave_up
          split
          · next hc => exact hc.2
          · exact h
      | down ch p =>
          apply ih
          unfold SimplePianoMode.handle_octave_down
          split
          · next hc => exact Nat.le_trans (Nat.sub_le _ _) h
          · exact h

/-- Claim C1 (amended): the Free-Play octave is bounded by `[0, max_octave]`
inclusive, not `[0, max_octave)`: every sequence of octave events keeps it
at most `octaves`; an octave-up press at `octaves` (not `octaves - 1`)
leaves the state unchanged; an octave-up press at `octaves - 1` increments
to `octaves`; an octave-down press at 0 leaves the state unchanged. -/
theorem freePlay_octave_bounds_amended (octaves : Nat) (s : SimplePianoState)
    (h : s.octave ≤ octaves) :
    (∀ evs : List OctaveEvent, (applyOctaveEvents octaves s evs).octave ≤ octaves) ∧
    (∀ ch, s.octave = octaves → SimplePianoMode.handle_octave_up octaves s ch true = s) ∧
    (∀ ch, s.octave = octaves - 1 → 0 < octaves →
        (SimplePianoMode.handle_octave_up octaves s ch true).octave = octaves) ∧
    (∀ ch, s.octave = 0 → SimplePianoMode.handle_octave_down s ch true = s) := by
  refine ⟨fun evs => applyOctaveEvents_octave_le octaves evs s h, ?_, ?_, ?_⟩
  · intro ch hs
    unfold SimplePianoMode.handle_octave_up
    rw [if_neg]
    rintro ⟨-, hlt⟩
    omega
  · intro ch hs hpos
    unfold SimplePianoMode.handle_octave_up
    rw [if_pos ⟨rfl, by omega⟩]
    simp only
    omega
  · intro ch hs
    unfold SimplePianoMode.handle_octave_down
    rw [if_neg]
    rintro ⟨-, hlt⟩
    omega

/-- Witness for `freePlay_octave_bounds_amended` at `octaves = 2`. -/
theorem freePlay_octave_bounds_amended_witness :
    (2 : Nat) ≤ 2 ∧ (0 : Nat) ≤ 2 ∧
    (applyOctaveEvents 2 ⟨2⟩ [OctaveEvent.up 15 true, OctaveEvent.down 15 true]).octave ≤ 2 ∧
    SimplePianoMode.handle_octave_up 2 ⟨2⟩ 15 true = ⟨2⟩ ∧
    SimplePianoMode.handle_octave_down ⟨0⟩ 15 true = ⟨0⟩ :=
  ⟨Nat.le_refl 2, Nat.zero_le 2,
   (freePlay_octave_bounds_amended 2 ⟨2⟩ (Nat.le_refl 2)).1 _,
   (freePlay_octave_bounds_amended 2 ⟨2⟩ (Nat.le_refl 2)).2.1 15 rfl,
   (freePlay_octave_bounds_amended 2 ⟨0⟩ (Nat.zero_le 2)).2.2.2 15 rfl⟩

/-- Claim C5: Free-Play's `handle_note` emits a playback of sample `i` if
and only if the event is a press and the computed index
`channel + 12*octave + NOTE_OFFSET` equals `i` and lies in
`[0, len(samples))`. -/
theorem freePlay_note_plays_iff (samplesLen : Nat) (s : SimplePianoState)
    (channel : Nat) (pressed : Bool) (i : Nat) :
    Effect.playSample i ∈ SimplePianoMode.handle_note samplesLen s channel pressed ↔
      pressed = true ∧
      0 ≤ (channel : Int) + 12 * (s.octave : Int) + NOTE_OFFSET ∧
      (channel : Int) + 12 * (s.octave : Int) + NOTE_OFFSET < (samplesLen : Int) ∧
      (i : Int) = (channel : Int) + 12 * (s.octave : Int) + NOTE_OFFSET := by
  simp only [SimplePianoMode.handle_note]
  split
  · next h =>
      obtain ⟨h1, h2, h3⟩ := h
      simp only [List.mem_singleton]
      constructor
      · intro hmem
        obtain rfl : i = ((channel : Int) + 12 * (s.octave : Int) + NOTE_OFFSET).toNat := by
          injection hmem
        exact ⟨h3, h1, h2, by rw [Int.toNat_of_nonneg h1]⟩
      · rintro ⟨-, -, -, hi⟩
        have hie : i = ((channel : Int) + 12 * (s.octave : Int) + NOTE_OFFSET).toNat := by
          omega
        rw [hie]
  · next h =>
      simp only [List.not_mem_nil, false_iff]
      rintro ⟨h3, h1, h2, -⟩
      exact h ⟨h1, h2, h3⟩

/-- Helper: a valid cursor makes `_current_note` succeed with the melody
entry at the cursor. -/
theorem MelodyMode._current_note_eq (s : MelodyState) (h : s.note < s.melody.length) :
    MelodyMode._current_note s = .ok (s.melody.get ⟨s.note, h⟩) := by
  unfold MelodyMode._current_note
  rw [List.get?_eq_get h]

/-- Claim C7: `MelodyMode.activate` resets the cursor to 0 regardless of its
prior value, performs the base-class activation effects, and lights the LED
of the first expected note. -/
theorem melody_activate_resets_cursor (s : MelodyState) (h : 0 < s.melody.length) :
    MelodyMode.activate s =
      .ok ({ s with note := 0 },
        pianoModeActivate false ++ [Effect.setLed (s.melody.get ⟨0, h⟩) true]) := by
  have hc := MelodyMode._current_note_eq { s with note := 0 } h
  simp only [MelodyMode.activate, hc]
  rfl

/-- Witness for `melody_activate_resets_cursor`: prior cursor 3 on melody
`[5]` is reset to 0 and LED 5 is lit. -/
theorem melody_activate_resets_cursor_witness :
    0 < ([5] : List Nat).length ∧
    MelodyMode.activate ⟨[5], 3, 0, false, none⟩ =
      .ok (⟨[5], 0, 0, false, none⟩, pianoModeActivate false ++ [Effect.setLed 5 true]) :=
  ⟨Nat.zero_lt_one, melody_activate_resets_cursor ⟨[5], 3, 0, false, none⟩ Nat.zero_lt_one⟩

/-- Claim C8: release events (`pressed = false`) are no-ops in every mode
with a valid cursor: no sample playback, no melody-cursor change, no
Free-Play octave change, no effects at all, for each of the three
per-mode handlers. -/
theorem release_events_noop (samplesLen octaves : Nat) (m : Mode) (ch : Nat)
    (h : Mode.cursorOk m = true) :
    Mode.handle_note samplesLen m ch false = .ok (m, []) ∧
    Mode.handle_octave_up octaves m ch false = .ok (m, []) ∧
    Mode.handle_octave_down m ch false = .ok (m, []) := by
  cases m with
  | simple s =>
      refine ⟨?_, ?_, ?_⟩
      · simp [Mode.handle_note, SimplePianoMode.handle_note]
      · simp [Mode.handle_octave_up, SimplePianoMode.handle_octave_up]
      · simp [Mode.handle_octave_down, SimplePianoMode.handle_octave_down]
  | melody s =>
      simp only [Mode.cursorOk, decide_eq_true_eq] at h
      refine ⟨?_, ?_, ?_⟩
      · have hc := MelodyMode._current_note_eq s h
        simp only [Mode.handle_note, MelodyMode.handle_note, hc, Bool.false_eq_true,
          if_false, ite_self]
        rfl
      · simp only [Mode.handle_octave_up, MelodyMode.handle_octave_up,
          Bool.false_eq_true, and_false, if_false]
      · simp only [Mode.handle_octave_down, MelodyMode.handle_octave_down,
          Bool.false_eq_true, and_false, if_false]
        rfl

/-- Witness for `release_events_noop`: a release of note 0 in the melody
mode `⟨[0], 0, 39⟩` changes nothing and plays nothing. -/
theorem release_events_noop_witness :
    Mode.cursorOk (Mode.melody ⟨[0], 0, 39, false, none⟩) = true ∧
    Mode.handle_note 10 (Mode.melody ⟨[0], 0, 39, false, none⟩) 0 false
      = .ok (Mode.melody ⟨[0], 0, 39, false, none⟩, []) :=
  ⟨rfl, (release_events_noop 10 6 (Mode.melody ⟨[0], 0, 39, false, none⟩) 0 rfl).1⟩

/-- Helper: binding a successful `Except` computation applies the
continuation. -/
theorem exceptBind_ok {α β : Type} (a : α) (f : α → Except PyError β) :
    (Except.ok a : Except PyError α) >>= f = f a := rfl

/-- Helper: binding a failed `Except` computation propagates the error. -/
theorem exceptBind_error {α β : Type} (e : PyError) (f : α → Except PyError β) :
    (Except.error e : Except PyError α) >>= f = Except.error e := rfl

/-- Helper: `_success` changes at most `music_running`; in particular the
melody list is untouched. -/
theorem MelodyMode._success_melody (s : MelodyState) :
    (MelodyMode._success s).1.melody = s.melody := by
  simp only [MelodyMode._success]
  split <;> rfl

/-- Helper: Python list indexing succeeds exactly on indices in
`[-len, len)`. -/
theorem pyListIndex_ok_iff (len : Nat) (i : Int) :
    (∃ n, pyListIndex len i = .ok n) ↔ (-(len : Int) ≤ i ∧ i < (len : Int)) := by
  unfold pyListIndex
  by_cases h0 : 0 ≤ i
  · rw [if_pos h0]
    by_cases h1 : i < (len : Int)
    · rw [if_pos h1]
      exact ⟨fun _ => ⟨by omega, h1⟩, fun _ => ⟨i.toNat, rfl⟩⟩
    · rw [if_neg h1]
      constructor
      · rintro ⟨n, hn⟩
        exact absurd hn (by simp)
      · rintro ⟨-, h2⟩
        exact absurd h2 h1
  · rw [if_neg h0]
    by_cases h1 : -(len : Int) ≤ i
    · rw [if_pos h1]
      exact ⟨fun _ => ⟨h1, by omega⟩, fun _ => ⟨_, rfl⟩⟩
    · rw [if_neg h1]
      constructor
      · rintro ⟨n, hn⟩
        exact absurd hn (by simp)
      · rintro ⟨h2, -⟩
        exact absurd h2 h1

/-- Helper: Python list indexing outside `[-len, len)` raises `IndexError`. -/
theorem pyListIndex_error (len : Nat) (i : Int)
    (h : ¬ (-(len : Int) ≤ i ∧ i < (len : Int))) :
    pyListIndex len i = .error .indexError := by
  unfold pyListIndex
  by_cases h0 : 0 ≤ i
  · rw [if_pos h0, if_neg (by omega)]
  · rw [if_neg h0, if_neg (by omega)]

/-- Helper: with a valid cursor, `_next` cannot fail (its only list accesses
are into the melody). -/
theorem MelodyMode._next_ok (s : MelodyState) (h : s.note < s.melody.length) :
    ∃ r, MelodyMode._next s = Except.ok r := by
  have hc := MelodyMode._current_note_eq s h
  simp only [MelodyMode._next, hc, exceptBind_ok]
  by_cases hlen : s.note + 1 = s.melody.length
  · rw [if_pos hlen]
    have h0 : ({ (MelodyMode._success { s with note := s.note + 1 }).1 with
          note := 0 } : MelodyState).note
        < ({ (MelodyMode._success { s with note := s.note + 1 }).1 with
          note := 0 } : MelodyState).melody.length := by
      simp only [MelodyMode._success_melody]
      omega
    rw [MelodyMode._current_note_eq _ h0]
    exact ⟨_, rfl⟩
  · rw [if_neg hlen]
    have h1 : ({ s with note := s.note + 1 } : MelodyState).note
        < ({ s with note := s.note + 1 } : MelodyState).melody.length := by
      simp only []
      omega
    rw [MelodyMode._current_note_eq _ h1]
    exact ⟨_, rfl⟩

/-- Claim C2 (amended): only Free-Play's `handle_note` guards its sample
access — every emitted playback index is below the bank size.  Melody Mode's
`handle_note` is unguarded: given a valid cursor it raises an error exactly
when the event is a press of the expected note and the requested index
`note_offset + channel` falls outside Python's accepted range
`[-len(samples), len(samples))` (negative in-range indices silently play
from the end of the bank rather than erroring). -/
theorem sample_access_guard_amended (samplesLen : Nat) (ss : SimplePianoState)
    (ms : MelodyState) (channel : Nat) (pressed : Bool)
    (h : ms.note < ms.melody.length) :
    (∀ i, Effect.playSample i ∈ SimplePianoMode.handle_note samplesLen ss channel pressed →
        i < samplesLen) ∧
    ((∃ e, MelodyMode.handle_note samplesLen ms channel pressed = .error e) ↔
      (pressed = true ∧ channel = ms.melody.get ⟨ms.note, h⟩ ∧
        ¬ (-(samplesLen : Int) ≤ ms.note_offset + (channel : Int) ∧
           ms.note_offset + (channel : Int) < (samplesLen : Int)))) := by
  constructor
  · intro i hi
    simp only [SimplePianoMode.handle_note] at hi
    split at hi
    · next hcond =>
        obtain ⟨h1, h2, -⟩ := hcond
        simp only [List.mem_singleton] at hi
        have hieq : i = ((channel : Int) + 12 * (ss.octave : Int) + NOTE_OFFSET).toNat := by
          injection hi
        omega
    · simp at hi
  · have hc := MelodyMode._current_note_eq ms h
    simp only [MelodyMode.handle_note, hc, exceptBind_ok]
    by_cases hch : channel ≠ ms.melody.get ⟨ms.note, h⟩
    · rw [if_pos hch]
      constructor
      · rintro ⟨e, he⟩
        exact absurd he (by simp)
      · rintro ⟨-, hceq, -⟩
        exact absurd hceq hch
    · push_neg at hch
      rw [if_neg (not_not_intro hch)]
      by_cases hp : pressed = true
      · rw [if_pos hp]
        by_cases hrange : -(samplesLen : Int) ≤ ms.note_offset + (channel : Int) ∧
            ms.note_offset + (channel : Int) < (samplesLen : Int)
        · obtain ⟨n, hn⟩ := (pyListIndex_ok_iff samplesLen _).2 hrange
          rw [hn, exceptBind_ok]
          obtain ⟨r, hr⟩ := MelodyMode._next_ok ms h
          rw [hr, exceptBind_ok]
          constructor
          · rintro ⟨e, he⟩
            exact absurd he (by simp)
          · rintro ⟨-, -, hno⟩
            exact absurd hrange hno
        · rw [pyListIndex_error samplesLen _ hrange, exceptBind_error]
          constructor
          · intro
            exact ⟨hp, hch, hrange⟩
          · intro
            exact ⟨.indexError, rfl⟩
      · rw [if_neg hp]
        constructor
        · rintro ⟨e, he⟩
          exact absurd he (by simp)
        · rintro ⟨hp2, -, -⟩
          exact absurd hp2 hp

/-- Witness for `sample_access_guard_amended`: bank of 10 samples, melody
`[0]` with cursor 0 and `note_offset = 39`; the press of expected note 0
requests index 39, outside `[-10, 10)`, so the handler errors; Free-Play's
handler never emits an out-of-range playback. -/
theorem sample_access_guard_amended_witness :
    (0 : Nat) < ([0] : List Nat).length ∧
    (∃ e, MelodyMode.handle_note 10 ⟨[0], 0, 39, false, none⟩ 0 true = .error e) :=
  ⟨Nat.zero_lt_one,
   (sample_access_guard_amended 10 ⟨0⟩ ⟨[0], 0, 39, false, none⟩ 0 true
      Nat.zero_lt_one).2.2 ⟨rfl, rfl, by decide⟩⟩

/-- Helper: a successful instrument press moves the index to
`(opmode_index + 1) % len(opmodes)` and keeps the registry length. -/
theorem handle_instrument_press_spec (d : Dispatcher) (ch : Nat)
    (r : Dispatcher × List Effect) (h : handle_instrument d ch true = .ok r) :
    r.1.opmode_index = (d.opmode_index + 1) % d.opmodes.length ∧
    r.1.opmodes.length = d.opmodes.length := by
  unfold handle_instrument at h
  rw [if_pos rfl] at h
  split at h
  · exact absurd h (by simp)
  · dsimp only [] at h
    split at h
    · exact absurd h (by simp)
    · next m hg =>
        cases ha : m.activate with
        | error e =>
            rw [ha, exceptBind_error] at h
            exact absurd h (by simp)
        | ok q =>
            rw [ha, exceptBind_ok] at h
            cases h
            exact ⟨rfl, by simp⟩

/-- Helper: after `k` successful instrument presses the registry length is
unchanged and the index has advanced by `k` modulo the length. -/
theorem pressTimes_spec : ∀ (k : Nat) (d d' : Dispatcher),
    0 < d.opmodes.length → d.opmode_index < d.opmodes.length →
    pressTimes k d = .ok d' →
    d'.opmodes.length = d.opmodes.length ∧
    d'.opmode_index = (d.opmode_index + k) % d.opmodes.length := by
  intro k
  induction k with
  | zero =>
      intro d d' h0 hi h
      cases h
      exact ⟨rfl, (Nat.mod_eq_of_lt hi).symm⟩
  | succ k ih =>
      intro d d' h0 hi h
      simp only [pressTimes] at h
      cases hstep : handle_instrument d 15 true with
      | error e =>
          rw [hstep, exceptBind_error] at h
          exact absurd h (by simp)
      | ok r =>
          rw [hstep, exceptBind_ok] at h
          obtain ⟨hidx, hlen⟩ := handle_instrument_press_spec d 15 r hstep
          have h0a : 0 < r.1.opmodes.length := by rw [hlen]; exact h0
          have hia : r.1.opmode_index < r.1.opmodes.length := by
            rw [hidx, hlen]
            exact Nat.mod_lt _ h0
          obtain ⟨hl2, hi2⟩ := ih r.1 d' h0a hia h
          refine ⟨by rw [hl2, hlen], ?_⟩
          rw [hi2, hidx, hlen, Nat.mod_add_mod]
          congr 1
          omega

/-- Claim C4: with `N` registered modes and a valid starting index, every
successful press advances the index to `(index + k) % N` (so a single press
gives `(index + 1) % N`), the index stays in `[0, N)` in every reachable
state, and `N` presses return to the original active mode. -/
theorem mode_cycling (d : Dispatcher) (N : Nat) (hN : d.opmodes.length = N)
    (h0 : 0 < N) (hi : d.opmode_index < N) :
    (∀ k d', pressTimes k d = .ok d' →
        d'.opmodes.length = N ∧
        d'.opmode_index = (d.opmode_index + k) % N ∧
        d'.opmode_index < N) ∧
    (∀ d', pressTimes N d = .ok d' → d'.opmode_index = d.opmode_index) := by
  subst hN
  constructor
  · intro k d' h
    obtain ⟨hl, hidx⟩ := pressTimes_spec k d d' h0 hi h
    exact ⟨hl, hidx, by rw [hidx]; exact Nat.mod_lt _ h0⟩
  · intro d' h
    obtain ⟨-, hidx⟩ := pressTimes_spec _ d d' h0 hi h
    rw [hidx, Nat.add_mod_right, Nat.mod_eq_of_lt hi]

/-- Witness for `mode_cycling`: the startup registry has three modes;
three presses return to the original dispatcher state, index 0. -/
theorem mode_cycling_witness :
    dispatcher_init.opmodes.length = 3 ∧ (0 : Nat) < 3 ∧
    dispatcher_init.opmode_index < 3 ∧
    pressTimes 3 dispatcher_init = .ok dispatcher_init ∧
    (∀ d', pressTimes 3 dispatcher_init = .ok d' →
        d'.opmode_index = dispatcher_init.opmode_index) :=
  ⟨rfl, by decide, by decide, rfl,
   (mode_cycling dispatcher_init 3 rfl (by decide) (by decide)).2⟩

/-- Helper: `handle_instrument` never changes a registry slot that holds a
Free-Play mode: unselected slots are untouched, and activating a Free-Play
mode returns its state unchanged. -/
theorem handle_instrument_preserves_simple (d : Dispatcher) (ch : Nat) (p : Bool)
    (r : Dispatcher × List Effect) (h : handle_instrument d ch p = .ok r)
    (j : Nat) (s : SimplePianoState)
    (hj : d.opmodes.get? j = some (Mode.simple s)) :
    r.1.opmodes.get? j = some (Mode.simple s) := by
  unfold handle_instrument at h
  by_cases hp : p = true
  · rw [if_pos hp] at h
    split at h
    · exact absurd h (by simp)
    · next hne =>
        dsimp only [] at h
        split at h
        · exact absurd h (by simp)
        · next m hg =>
            cases ha : m.activate with
            | error e =>
                rw [ha, exceptBind_error] at h
                exact absurd h (by simp)
            | ok q =>
                rw [ha, exceptBind_ok] at h
                cases h
                by_cases hij : (d.opmode_index + 1) % d.opmodes.length = j
                · subst hij
                  have hm : m = Mode.simple s := by
                    rw [hg] at hj
                    exact Option.some.inj hj
                  subst hm
                  have hq : q = (Mode.simple s, pianoModeActivate true) :=
                    (Except.ok.inj ha).symm
                  have hlt : (d.opmode_index + 1) % d.opmodes.length
                      < d.opmodes.length :=
                    Nat.mod_lt _ (Nat.pos_of_ne_zero hne)
                  rw [hq, List.get?_eq_getElem?]
                  rw [List.getElem?_set_self hlt]
                · rw [List.get?_eq_getElem?, List.getElem?_set_ne hij,
                    ← List.get?_eq_getElem?]
                  exact hj
  · rw [if_neg hp] at h
    cases h
    exact hj

/-- Helper: any number of instrument presses leaves every Free-Play slot of
the registry with its original state. -/
theorem pressTimes_preserves_simple : ∀ (k : Nat) (d d' : Dispatcher),
    pressTimes k d = .ok d' →
    ∀ (j : Nat) (s : SimplePianoState),
      d.opmodes.get? j = some (Mode.simple s) →
      d'.opmodes.get? j = some (Mode.simple s) := by
  intro k
  induction k with
  | zero =>
      intro d d' h j s hj
      cases h
      exact hj
  | succ k ih =>
      intro d d' h j s hj
      simp only [pressTimes] at h
      cases hstep : handle_instrument d 15 true with
      | error e =>
          rw [hstep, exceptBind_error] at h
          exact absurd h (by simp)
      | ok r =>
          rw [hstep, exceptBind_ok] at h
          exact ih r.1 d' h j s
            (handle_instrument_preserves_simple d 15 true r hstep j s hj)

/-- Claim C10: switching modes never resets Free-Play's octave: after any
sequence of instrument presses, a registry slot holding a Free-Play state
still holds exactly that state (octave included), and activating a
Free-Play mode returns its state unchanged — it only re-binds handlers,
clears LEDs and sets the auto-LED flag. -/
theorem mode_switching_preserves_octave (d : Dispatcher) (k : Nat)
    (d' : Dispatcher) (h : pressTimes k d = .ok d') (j : Nat)
    (s : SimplePianoState) (hj : d.opmodes.get? j = some (Mode.simple s)) :
    d'.opmodes.get? j = some (Mode.simple s) ∧
    Mode.activate (Mode.simple s) = .ok (Mode.simple s, pianoModeActivate true) :=
  ⟨pressTimes_preserves_simple k d d' h j s hj, rfl⟩

/-- Witness for `mode_switching_preserves_octave`: one press moves the
startup dispatcher to index 1; slot 0 still holds the Free-Play state with
octave 4. -/
theorem mode_switching_preserves_octave_witness :
    pressTimes 1 dispatcher_init = .ok ⟨opmodes_init, 1⟩ ∧
    dispatcher_init.opmodes.get? 0 = some (Mode.simple ⟨4⟩) ∧
    (⟨opmodes_init, 1⟩ : Dispatcher).opmodes.get? 0 = some (Mode.simple ⟨4⟩) :=
  ⟨rfl, rfl,
   (mode_switching_preserves_octave dispatcher_init 1 ⟨opmodes_init, 1⟩ rfl 0 ⟨4⟩
      rfl).1⟩
